import Mathlib

/-!
Verification of the vercel-env-checker core (client-side resilience and
orchestration layer) against its natural-language specification.

The TypeScript source is shallowly embedded: pure computations become Lean
functions, the network and the on-disk cache become explicit oracles and
explicit state passing, JavaScript millisecond timestamps become `Int`, and
fallible operations return `Except`.  The embedded functions mirror
`src/config.ts` (`Config.getCache` / `Config.setCache`),
`src/vercel-api.ts` (`request`, `getProjects`, `getEnvVars`,
`enforceRateLimit`) and `src/index.ts` (`searchByValueInProjects`).
-/

namespace VEC

/-- JavaScript string truthiness for an optional string field:
`undefined` and the empty string are falsy, everything else truthy. -/
def jsTruthy : Option String → Bool
  | none => false
  | some s => !(s == "")

/-- `hay.includes(needle)`: substring containment, as in
`String.prototype.includes`. -/
def jsIncludes (hay needle : String) : Bool :=
  decide (needle.data <:+: hay.data)

/-- `s.toLowerCase()`: character-wise lowercasing. -/
def jsToLower (s : String) : String :=
  ⟨s.data.map Char.toLower⟩

/-- An environment variable as returned by the API
(`EnvVar` in `src/types.ts`).  `value` is absent until resolved/enriched. -/
structure EnvVar where
  id : Option String
  key : String
  value : Option String
  type : Option String
  target : List String
  updatedAt : String
  deriving Repr, DecidableEq

/-- A project (`Project` in `src/types.ts`). -/
structure Project where
  id : String
  name : String
  framework : Option String
  updatedAt : String
  deriving Repr, DecidableEq

/-- A per-project search result (`MatchResult` in `src/types.ts`). -/
structure MatchResult where
  project : String
  «matches» : List EnvVar
  deriving Repr, DecidableEq

/-- Errors surfaced by the embedded operations. -/
inductive VErr where
  | api (status : Nat) (msg : String)
  | network (msg : String)
  | noToken
  deriving Repr, DecidableEq

/-! ## CacheStore (`src/config.ts`) -/

/-- One on-disk cache file (`CacheData<T>` in `src/config.ts`):
creation timestamp, payload, and optional TTL in milliseconds. -/
structure CacheData (α : Type) where
  timestamp : Int
  data : α
  ttl : Option Int
  deriving Repr, DecidableEq

/-- The cache directory: one entry per key (one JSON file per key). -/
abbrev CacheStore (α : Type) : Type := List (String × CacheData α)

/-- The default TTL used by `Config.getCache` when the entry stores none:
one hour in milliseconds. -/
def defaultTtlMs : Int := 3600000

/-- The TTL used for environment-variable cache entries
(`ENV_CACHE_TTL` in `src/vercel-api.ts`): five minutes in milliseconds. -/
def envCacheTtlMs : Int := 300000

namespace Config

/-- `Config.getCache` from `src/config.ts`: read the entry for `key`; if
`now - timestamp < (ttl ?? 3600000)` return the payload, otherwise delete
the file (lazy eviction) and signal a miss.  Returns the result together
with the store after any eviction. -/
def getCache (store : CacheStore α) (now : Int) (key : String) :
    Option α × CacheStore α :=
  match store.find? (fun e => e.1 == key) with
  | none => (none, store)
  | some (_, cd) =>
    if now - cd.timestamp < cd.ttl.getD defaultTtlMs then
      (some cd.data, store)
    else
      (none, store.filter (fun e => !(e.1 == key)))

/-- `Config.setCache` from `src/config.ts`: overwrite the entry for `key`
with the payload, the current timestamp, and the given TTL (stored only
when provided). -/
def setCache (store : CacheStore α) (now : Int) (key : String) (data : α)
    (ttlMs : Option Int) : CacheStore α :=
  (key, ⟨now, data, ttlMs⟩) :: store.filter (fun e => !(e.1 == key))

end Config

lemma find?_filter_ne_key (store : CacheStore α) (key : String) :
    (store.filter (fun e => !(e.1 == key))).find? (fun e => e.1 == key) =
      none := by
  induction store with
  | nil => rfl
  | cons hd tl ih =>
    by_cases h : hd.1 = key
    · simp [List.filter, h, ih]
    · have hb : (hd.1 == key) = false := beq_false_of_ne h
      simp [List.filter, hb, List.find?, ih]

/-- C2: for a cache entry with creation timestamp `t` and optional TTL
(defaulting to one hour), `getCache` returns the stored payload iff
`now - t < ttl`; otherwise it returns a miss and, as a side effect of that
miss, the entry is removed from the store (lazy eviction). -/
theorem getCache_ttl_correct (α : Type) (store : CacheStore α) (now : Int)
    (key : String) (cd : CacheData α)
    (hfind : store.find? (fun e => e.1 == key) = some (key, cd)) :
    ((Config.getCache store now key).1 = some cd.data ↔
      now - cd.timestamp < cd.ttl.getD defaultTtlMs) ∧
    (¬ now - cd.timestamp < cd.ttl.getD defaultTtlMs →
      (Config.getCache store now key).1 = none ∧
      ((Config.getCache store now key).2).find? (fun e => e.1 == key) =
        none) := by
  unfold Config.getCache
  rw [hfind]
  by_cases h : now - cd.timestamp < cd.ttl.getD defaultTtlMs
  · simp [h]
  · simp [h, find?_filter_ne_key]

/-- Witness for C2: a concrete expired entry (timestamp 0, TTL 1000 ms,
read at time 5000) yields a miss and is evicted. -/
theorem getCache_ttl_correct_witness :
    (((Config.getCache
        (α := Nat) [("k", ⟨0, 42, some 1000⟩)] 5000 "k").1 = some 42 ↔
      (5000 : Int) - 0 < (some (1000 : Int)).getD defaultTtlMs) ∧
    (¬ (5000 : Int) - 0 < (some (1000 : Int)).getD defaultTtlMs →
      (Config.getCache (α := Nat) [("k", ⟨0, 42, some 1000⟩)] 5000 "k").1 =
        none ∧
      ((Config.getCache
          (α := Nat) [("k", ⟨0, 42, some 1000⟩)] 5000 "k").2).find?
        (fun e => e.1 == "k") = none)) :=
  getCache_ttl_correct Nat [("k", ⟨0, 42, some 1000⟩)] 5000 "k"
    ⟨0, 42, some 1000⟩ (by decide)

/-! ## EnvVarResolver (`getEnvVars` in `src/vercel-api.ts`)

The network is an oracle: `raw` is the outcome of the raw-list request
`GET /v9/projects/:id/env`, and `detail` maps an environment-variable id to
the outcome of its detail request `GET /v9/projects/:id/env/:envId`. -/

/-- The cache key built by `getEnvVars`:
`` `envvars_${projectId}_${includeValues}` ``. -/
def envCacheKey (projectId : String) (includeValues : Bool) : String :=
  "envvars_" ++ projectId ++ "_" ++ (if includeValues then "true" else "false")

/-- One enrichment step of `getEnvVars`: a variable whose `type` is
`"encrypted"` or whose `value` is falsy gets a detail fetch (skipped when
its `id` is falsy); on success, `value` is overwritten only when the
fetched `details.value` is truthy; on failure the variable is left as is. -/
def enrichVar (detail : String → Except VErr EnvVar) (env : EnvVar) :
    EnvVar :=
  if env.type == some "encrypted" || !jsTruthy env.value then
    match env.id with
    | none => env
    | some envId =>
      if envId == "" then env
      else
        match detail envId with
        | .error _ => env
        | .ok details =>
          if jsTruthy details.value then { env with value := details.value }
          else env
  else env

/-- The target filter of `getEnvVars`: applied only when `targetFilter` is
truthy, keeping variables whose `target` array contains the filter. -/
def applyTargetFilter (targetFilter : Option String) (envs : List EnvVar) :
    List EnvVar :=
  match targetFilter with
  | none => envs
  | some tf =>
    if tf == "" then envs
    else envs.filter (fun env => env.target.contains tf)

/-- `getEnvVars` from `src/vercel-api.ts`: read-through on
`envvars_{projectId}_{includeValues}` (on miss, fetch the raw list and
cache it with the 5-minute TTL), then apply the target filter, then — when
`includeValues` — enrich encrypted/valueless variables via per-variable
detail fetches that fail softly.  Returns the variable list together with
the resulting cache store. -/
def getEnvVars (store : CacheStore (List EnvVar)) (now : Int)
    (projectId : String) (includeValues : Bool) (targetFilter : Option String)
    (raw : Except VErr (List EnvVar)) (detail : String → Except VErr EnvVar) :
    Except VErr (List EnvVar × CacheStore (List EnvVar)) :=
  match Config.getCache store now (envCacheKey projectId includeValues) with
  | (some cachedEnvs, store₁) =>
    .ok (if includeValues then
           (applyTargetFilter targetFilter cachedEnvs).map (enrichVar detail)
         else applyTargetFilter targetFilter cachedEnvs, store₁)
  | (none, store₁) =>
    match raw with
    | .error e => .error e
    | .ok envs₀ =>
      .ok (if includeValues then
             (applyTargetFilter targetFilter envs₀).map (enrichVar detail)
           else applyTargetFilter targetFilter envs₀,
           Config.setCache store₁ now (envCacheKey projectId includeValues)
             envs₀ (some envCacheTtlMs))

lemma mem_getCache_snd {store : CacheStore α} {now : Int} {key : String}
    {e : String × CacheData α} (h : e ∈ (Config.getCache store now key).2) :
    e ∈ store := by
  unfold Config.getCache at h
  rcases hf : store.find? (fun e => e.1 == key) with _ | ⟨k, cd⟩
  · rw [hf] at h; exact h
  · rw [hf] at h
    by_cases ht : now - cd.timestamp < cd.ttl.getD defaultTtlMs
    · simpa [ht] using h
    · simp only [ht, if_false, if_neg, not_false_iff] at h
      exact (List.mem_filter.mp h).1

lemma mem_setCache {store : CacheStore α} {now : Int} {key : String}
    {d : α} {t : Option Int} {e : String × CacheData α}
    (h : e ∈ Config.setCache store now key d t) :
    e = (key, ⟨now, d, t⟩) ∨ e ∈ store := by
  unfold Config.setCache at h
  rcases List.mem_cons.mp h with h | h
  · exact Or.inl h
  · exact Or.inr (List.mem_filter.mp h).1

/-- C3: `getEnvVars` writes only the raw, pre-enrichment variable list to
the cache: every entry of the resulting store is either an entry of the
original store or the read-through write of the raw fetched list (under the
5-minute TTL); no detail-fetched (enriched) value ever reaches the cache. -/
theorem getEnvVars_cache_stores_raw_only (store : CacheStore (List EnvVar))
    (now : Int) (projectId : String) (includeValues : Bool)
    (targetFilter : Option String) (raw : Except VErr (List EnvVar))
    (detail : String → Except VErr EnvVar) (vars : List EnvVar)
    (st : CacheStore (List EnvVar))
    (h : getEnvVars store now projectId includeValues targetFilter raw
      detail = .ok (vars, st)) :
    ∀ e ∈ st, e ∈ store ∨
      ∃ rawList, raw = .ok rawList ∧
        e = (envCacheKey projectId includeValues,
             ⟨now, rawList, some envCacheTtlMs⟩) := by
  intro e he
  unfold getEnvVars at h
  rcases hc : Config.getCache store now (envCacheKey projectId includeValues)
    with ⟨_ | cachedEnvs, store₁⟩
  · rw [hc] at h
    rcases hraw : raw with err | envs₀
    · rw [hraw] at h; exact absurd h (by simp)
    · rw [hraw] at h
      simp only [Except.ok.injEq, Prod.mk.injEq] at h
      rcases h with ⟨-, hst⟩
      subst hst
      rcases mem_setCache he with heq | hmem
      · exact Or.inr ⟨envs₀, rfl, heq⟩
      · have hst₁ : store₁ =
          (Config.getCache store now
            (envCacheKey projectId includeValues)).2 := by rw [hc]
        exact Or.inl (mem_getCache_snd (hst₁ ▸ hmem))
  · rw [hc] at h
    simp only [Except.ok.injEq, Prod.mk.injEq] at h
    rcases h with ⟨-, hst⟩
    subst hst
    have hst₁ : store₁ =
      (Config.getCache store now
        (envCacheKey projectId includeValues)).2 := by rw [hc]
    exact Or.inl (mem_getCache_snd (hst₁ ▸ he))

/-- Witness for C3: a concrete miss-path call whose only new store entry —
inspected directly — is the raw pre-enrichment list, even though the
detail oracle returned a secret value that ended up in the result. -/
theorem getEnvVars_cache_stores_raw_only_witness :
    (envCacheKey "p1" true,
      (⟨7, [⟨some "i1", "K", none, some "encrypted", ["production"], "t"⟩],
        some envCacheTtlMs⟩ : CacheData (List EnvVar))) ∈
      ([] : CacheStore (List EnvVar)) ∨
    ∃ rawList,
      (Except.ok [⟨some "i1", "K", none, some "encrypted", ["production"],
        "t"⟩] : Except VErr (List EnvVar)) = .ok rawList ∧
      (envCacheKey "p1" true,
        (⟨7, [⟨some "i1", "K", none, some "encrypted", ["production"], "t"⟩],
          some envCacheTtlMs⟩ : CacheData (List EnvVar))) =
        (envCacheKey "p1" true, ⟨7, rawList, some envCacheTtlMs⟩) :=
  getEnvVars_cache_stores_raw_only [] 7 "p1" true none
    (.ok [⟨some "i1", "K", none, some "encrypted", ["production"], "t"⟩])
    (fun _ => .ok ⟨some "i1", "K", some "sEcReT", some "encrypted",
      ["production"], "t"⟩)
    [⟨some "i1", "K", some "sEcReT", some "encrypted", ["production"], "t"⟩]
    [(envCacheKey "p1" true,
      ⟨7, [⟨some "i1", "K", none, some "encrypted", ["production"], "t"⟩],
       some envCacheTtlMs⟩)]
    (by rfl)
    (envCacheKey "p1" true,
      ⟨7, [⟨some "i1", "K", none, some "encrypted", ["production"], "t"⟩],
       some envCacheTtlMs⟩)
    (List.mem_singleton.mpr rfl)

lemma enrichVar_target (detail : String → Except VErr EnvVar)
    (env : EnvVar) : (enrichVar detail env).target = env.target := by
  unfold enrichVar
  repeat' split
  all_goals rfl

lemma mem_applyTargetFilter {tf : String} {env : EnvVar}
    {envs : List EnvVar} (htf : tf ≠ "")
    (h : env ∈ applyTargetFilter (some tf) envs) :
    env.target.contains tf = true := by
  simp only [applyTargetFilter] at h
  rw [if_neg (by simpa using htf)] at h
  exact (List.mem_filter.mp h).2

lemma mem_envResult_target {tf : String} {incl : Bool} {env : EnvVar}
    {envs : List EnvVar} {detail : String → Except VErr EnvVar}
    (htf : tf ≠ "")
    (h : env ∈ (if incl then
        (applyTargetFilter (some tf) envs).map (enrichVar detail)
      else applyTargetFilter (some tf) envs)) :
    env.target.contains tf = true := by
  cases incl with
  | false => exact mem_applyTargetFilter htf (by simpa using h)
  | true =>
    simp only [if_true] at h
    rcases List.mem_map.mp h with ⟨env₀, hmem, rfl⟩
    rw [enrichVar_target]
    exact mem_applyTargetFilter htf hmem

/-- C4: `getEnvVars` is read-through on `envvars_{projectId}_{includeValues}`
— on a cache miss the raw fetched list is written with the 5-minute TTL —
and the target filter is applied only after the cache lookup/write, so
every variable in the result carries the filter tag even when the (raw,
unfiltered) list came from the cache. -/
theorem getEnvVars_read_through_filter_after
    (store : CacheStore (List EnvVar)) (now : Int) (projectId : String)
    (includeValues : Bool) (tf : String) (raw : Except VErr (List EnvVar))
    (detail : String → Except VErr EnvVar) (vars : List EnvVar)
    (st : CacheStore (List EnvVar))
    (h : getEnvVars store now projectId includeValues (some tf) raw detail =
      .ok (vars, st))
    (htf : tf ≠ "") :
    (∀ env ∈ vars, env.target.contains tf = true) ∧
    ((Config.getCache store now
        (envCacheKey projectId includeValues)).1 = none →
      ∃ rawList, raw = .ok rawList ∧
        st = Config.setCache
          (Config.getCache store now (envCacheKey projectId includeValues)).2
          now (envCacheKey projectId includeValues) rawList
          (some envCacheTtlMs)) := by
  unfold getEnvVars at h
  rcases hc : Config.getCache store now (envCacheKey projectId includeValues)
    with ⟨_ | cachedEnvs, store₁⟩
  · rw [hc] at h
    rcases hraw : raw with err | envs₀
    · rw [hraw] at h; exact absurd h (by simp)
    · rw [hraw] at h
      simp only [Except.ok.injEq, Prod.mk.injEq] at h
      rcases h with ⟨hvars, hst⟩
      constructor
      · intro env hmem
        exact mem_envResult_target htf (hvars ▸ hmem)
      · intro _
        exact ⟨envs₀, rfl, hst.symm⟩
  · rw [hc] at h
    simp only [Except.ok.injEq, Prod.mk.injEq] at h
    rcases h with ⟨hvars, -⟩
    constructor
    · intro env hmem
      exact mem_envResult_target htf (hvars ▸ hmem)
    · intro hmiss
      exact absurd hmiss (by simp)

/-- Witness for C4: with a cached raw (unfiltered) entry present, a call
with `targetFilter = "production"` excludes the variable tagged only
`{"preview"}` — here the network oracle even fails, so the cached raw list
is demonstrably the one filtered. -/
theorem getEnvVars_read_through_filter_after_witness :
    ((∀ env ∈ [(⟨some "a", "PROD_KEY", some "x", some "plain",
        ["production"], "t"⟩ : EnvVar)],
        env.target.contains "production" = true) ∧
    ((Config.getCache
        [(envCacheKey "p1" true,
          (⟨0, [⟨some "a", "PROD_KEY", some "x", some "plain",
                 ["production"], "t"⟩,
                ⟨some "b", "PREVIEW_KEY", some "x", some "plain",
                 ["preview"], "t"⟩], some envCacheTtlMs⟩ :
            CacheData (List EnvVar)))] 1000 (envCacheKey "p1" true)).1 =
        none →
      ∃ rawList,
        (Except.error (VErr.network "down") :
          Except VErr (List EnvVar)) = .ok rawList ∧
        [(envCacheKey "p1" true,
          (⟨0, [⟨some "a", "PROD_KEY", some "x", some "plain",
                 ["production"], "t"⟩,
                ⟨some "b", "PREVIEW_KEY", some "x", some "plain",
                 ["preview"], "t"⟩], some envCacheTtlMs⟩ :
            CacheData (List EnvVar)))] = Config.setCache
          (Config.getCache
            [(envCacheKey "p1" true,
              ⟨0, [⟨some "a", "PROD_KEY", some "x", some "plain",
                    ["production"], "t"⟩,
                   ⟨some "b", "PREVIEW_KEY", some "x", some "plain",
                    ["preview"], "t"⟩], some envCacheTtlMs⟩)] 1000
            (envCacheKey "p1" true)).2
          1000 (envCacheKey "p1" true) rawList (some envCacheTtlMs))) :=
  getEnvVars_read_through_filter_after
    [(envCacheKey "p1" true,
      ⟨0, [⟨some "a", "PROD_KEY", some "x", some "plain", ["production"],
            "t"⟩,
           ⟨some "b", "PREVIEW_KEY", some "x", some "plain", ["preview"],
            "t"⟩], some envCacheTtlMs⟩)]
    1000 "p1" true "production" (.error (.network "down"))
    (fun _ => .error (.network "down"))
    [⟨some "a", "PROD_KEY", some "x", some "plain", ["production"], "t"⟩]
    [(envCacheKey "p1" true,
      ⟨0, [⟨some "a", "PROD_KEY", some "x", some "plain", ["production"],
            "t"⟩,
           ⟨some "b", "PREVIEW_KEY", some "x", some "plain", ["preview"],
            "t"⟩], some envCacheTtlMs⟩)]
    (by rfl) (by decide)

/-- C8: failure isolation in `getEnvVars`: (1) on a cache miss a failing
raw-list fetch propagates to the caller; (2) whenever the raw list is
available (from cache or network) the call succeeds no matter how the
per-variable detail fetches behave; (3) a variable whose detail fetch
fails is returned unchanged — it keeps its existing (possibly empty)
value. -/
theorem getEnvVars_failure_isolation :
    (∀ (store : CacheStore (List EnvVar)) (now : Int)
       (projectId : String) (includeValues : Bool)
       (targetFilter : Option String) (err : VErr)
       (detail : String → Except VErr EnvVar),
       (Config.getCache store now
         (envCacheKey projectId includeValues)).1 = none →
       getEnvVars store now projectId includeValues targetFilter
         (.error err) detail = .error err) ∧
    (∀ (store : CacheStore (List EnvVar)) (now : Int)
       (projectId : String) (includeValues : Bool)
       (targetFilter : Option String) (rawList : List EnvVar)
       (detail : String → Except VErr EnvVar),
       (getEnvVars store now projectId includeValues targetFilter
         (.ok rawList) detail).isOk = true) ∧
    (∀ (detail : String → Except VErr EnvVar) (env : EnvVar)
       (envId : String) (err : VErr),
       env.id = some envId → detail envId = .error err →
       enrichVar detail env = env) := by
  refine ⟨?_, ?_, ?_⟩
  · intro store now projectId includeValues targetFilter err detail hmiss
    unfold getEnvVars
    rcases hc : Config.getCache store now
      (envCacheKey projectId includeValues) with ⟨o, store₁⟩
    rw [hc] at hmiss
    simp only at hmiss
    subst hmiss
    rfl
  · intro store now projectId includeValues targetFilter rawList detail
    unfold getEnvVars
    rcases hc : Config.getCache store now
      (envCacheKey projectId includeValues) with ⟨_ | cachedEnvs, store₁⟩
    · rfl
    · rfl
  · intro detail env envId err hid hdet
    unfold enrichVar
    rw [hid]
    dsimp only
    by_cases hsel : (env.type == some "encrypted" || !jsTruthy env.value)
      = true
    · rw [if_pos hsel]
      by_cases hempty : (envId == "") = true
      · rw [if_pos hempty]
      · rw [if_neg hempty, hdet]
    · rw [if_neg hsel]

/-- Witness for C8: a concrete project whose only variable's detail fetch
fails — the raw-list failure propagates, the ok-raw call still succeeds,
and the variable is returned with its original (empty) value. -/
theorem getEnvVars_failure_isolation_witness :
    (getEnvVars [] 0 "p1" true none (.error (.network "down"))
      (fun _ => .error (.api 403 "forbidden")) =
        .error (.network "down")) ∧
    ((getEnvVars [] 0 "p1" true none
      (.ok [⟨some "e1", "K", none, some "encrypted", ["production"], "t"⟩])
      (fun _ => .error (.api 403 "forbidden"))).isOk = true) ∧
    (enrichVar (fun _ => .error (.api 403 "forbidden"))
      ⟨some "e1", "K", none, some "encrypted", ["production"], "t"⟩ =
      ⟨some "e1", "K", none, some "encrypted", ["production"], "t"⟩) :=
  ⟨getEnvVars_failure_isolation.1 [] 0 "p1" true none (.network "down")
      (fun _ => .error (.api 403 "forbidden")) (by rfl),
   getEnvVars_failure_isolation.2.1 [] 0 "p1" true none
      [⟨some "e1", "K", none, some "encrypted", ["production"], "t"⟩]
      (fun _ => .error (.api 403 "forbidden")),
   getEnvVars_failure_isolation.2.2
      (fun _ => .error (.api 403 "forbidden"))
      ⟨some "e1", "K", none, some "encrypted", ["production"], "t"⟩
      "e1" (.api 403 "forbidden") (by rfl) (by rfl)⟩

/-! ## SearchOrchestrator (`searchByValueInProjects` in `src/index.ts`)

`resolve` is the oracle for `this.api.getEnvVars(project.id, true, target)`
— it absorbs the query-independent `target` argument and
`includeValues = true`.  `Promise.all` over the mapped task array preserves
the order of the task array, so the fan-out/fan-in is embedded as an
order-preserving `filterMap` over the input project list. -/

/-- The per-variable match test of `searchByValueInProjects`:
`env.value` truthy and
`env.value.toLowerCase().includes(valueQuery.toLowerCase())`. -/
def jsValueMatch (valueQuery : String) (env : EnvVar) : Bool :=
  match env.value with
  | none => false
  | some v =>
    if v == "" then false
    else jsIncludes (jsToLower v) (jsToLower valueQuery)

/-- One per-project search task: resolve the variables, filter by
`jsValueMatch`, return a `MatchResult` only when at least one variable
matched; any failure is caught at the task boundary and yields no result. -/
def searchTask (valueQuery : String)
    (resolve : Project → Except VErr (List EnvVar)) (p : Project) :
    Option MatchResult :=
  match resolve p with
  | .error _ => none
  | .ok envVars =>
    if (envVars.filter (jsValueMatch valueQuery)).isEmpty then none
    else some ⟨p.name, envVars.filter (jsValueMatch valueQuery)⟩

/-- `searchByValueInProjects` from `src/index.ts`: run one task per project
and collect the non-null results in task-array order. -/
def searchByValueInProjects (valueQuery : String) (projects : List Project)
    (resolve : Project → Except VErr (List EnvVar)) : List MatchResult :=
  projects.filterMap (searchTask valueQuery resolve)

/-- The variables of one project that match the query (empty when the
project's resolve fails). -/
def projectMatches (valueQuery : String)
    (resolve : Project → Except VErr (List EnvVar)) (p : Project) :
    List EnvVar :=
  match resolve p with
  | .error _ => []
  | .ok envVars => envVars.filter (jsValueMatch valueQuery)

/-- C1: a per-project task that fails is caught at the task boundary and
contributes no `MatchResult`, while the surrounding projects' results are
exactly what they would be without it — the overall search is a total
function and never propagates a single project's failure. -/
theorem search_isolates_project_failure (valueQuery : String)
    (resolve : Project → Except VErr (List EnvVar))
    (before after : List Project) (bad : Project) (err : VErr)
    (hfail : resolve bad = .error err) :
    searchByValueInProjects valueQuery (before ++ bad :: after) resolve =
      searchByValueInProjects valueQuery before resolve ++
        searchByValueInProjects valueQuery after resolve := by
  simp [searchByValueInProjects, List.filterMap_append, List.filterMap_cons,
    searchTask, hfail]

/-- Witness for C1: five projects where project 3 always fails — the search
returns the matches from the remaining four and does not raise. -/
theorem search_isolates_project_failure_witness :
    searchByValueInProjects "token"
      [⟨"1", "P1", none, "t"⟩, ⟨"2", "P2", none, "t"⟩,
       ⟨"3", "P3", none, "t"⟩, ⟨"4", "P4", none, "t"⟩,
       ⟨"5", "P5", none, "t"⟩]
      (fun p => if p.id == "3" then .error (.api 500 "boom")
        else .ok [⟨some "i", "K", some "my-token-value", some "plain",
          ["production"], "t"⟩]) =
      searchByValueInProjects "token"
        [⟨"1", "P1", none, "t"⟩, ⟨"2", "P2", none, "t"⟩]
        (fun p => if p.id == "3" then .error (.api 500 "boom")
          else .ok [⟨some "i", "K", some "my-token-value", some "plain",
            ["production"], "t"⟩]) ++
      searchByValueInProjects "token"
        [⟨"4", "P4", none, "t"⟩, ⟨"5", "P5", none, "t"⟩]
        (fun p => if p.id == "3" then .error (.api 500 "boom")
          else .ok [⟨some "i", "K", some "my-token-value", some "plain",
            ["production"], "t"⟩]) :=
  search_isolates_project_failure "token"
    (fun p => if p.id == "3" then .error (.api 500 "boom")
      else .ok [⟨some "i", "K", some "my-token-value", some "plain",
        ["production"], "t"⟩])
    [⟨"1", "P1", none, "t"⟩, ⟨"2", "P2", none, "t"⟩]
    [⟨"4", "P4", none, "t"⟩, ⟨"5", "P5", none, "t"⟩]
    ⟨"3", "P3", none, "t"⟩ (.api 500 "boom") (by rfl)

/-- C7: a variable is reported as a match iff its value is a non-empty
string containing the query as a case-insensitive substring; the search
result holds exactly one `MatchResult` per project with at least one
matching variable; and `"Secret"` matches the value
`"this-is-a-SECRET-token"`. -/
theorem search_match_semantics :
    (∀ (valueQuery : String) (env : EnvVar),
       jsValueMatch valueQuery env = true ↔
         ∃ v, env.value = some v ∧ v ≠ "" ∧
           (jsToLower valueQuery).data <:+: (jsToLower v).data) ∧
    (∀ (valueQuery : String)
       (resolve : Project → Except VErr (List EnvVar))
       (projects : List Project),
       searchByValueInProjects valueQuery projects resolve =
         (projects.filter
           (fun p => !(projectMatches valueQuery resolve p).isEmpty)).map
           (fun p => ⟨p.name, projectMatches valueQuery resolve p⟩)) ∧
    (jsValueMatch "Secret"
      ⟨some "i", "TOKEN", some "this-is-a-SECRET-token", some "plain",
       ["production"], "t"⟩ = true) := by
  refine ⟨?_, ?_, ?_⟩
  · intro valueQuery env
    cases hv : env.value with
    | none => simp [jsValueMatch, hv]
    | some v =>
      by_cases he : (v == "") = true
      · simp only [beq_iff_eq] at he
        subst he
        simp [jsValueMatch, hv]
      · have hne : v ≠ "" := by simpa using he
        simp [jsValueMatch, hv, he, jsIncludes, hne]
  · intro valueQuery resolve projects
    induction projects with
    | nil => rfl
    | cons p ps ih =>
      cases hr : resolve p with
      | error e =>
        have ht : searchTask valueQuery resolve p = none := by
          simp [searchTask, hr]
        have hpm : projectMatches valueQuery resolve p = [] := by
          simp [projectMatches, hr]
        have hstep : searchByValueInProjects valueQuery (p :: ps) resolve =
            searchByValueInProjects valueQuery ps resolve := by
          simp only [searchByValueInProjects, List.filterMap_cons, ht]
        rw [hstep, ih, List.filter_cons]
        simp [hpm]
      | ok envVars =>
        have hpm : projectMatches valueQuery resolve p =
            envVars.filter (jsValueMatch valueQuery) := by
          simp [projectMatches, hr]
        by_cases hm : (envVars.filter (jsValueMatch valueQuery)).isEmpty
          = true
        · have ht : searchTask valueQuery resolve p = none := by
            simp [searchTask, hr, hm]
          have hstep :
              searchByValueInProjects valueQuery (p :: ps) resolve =
                searchByValueInProjects valueQuery ps resolve := by
            simp only [searchByValueInProjects, List.filterMap_cons, ht]
          rw [hstep, ih, List.filter_cons]
          simp [hpm, hm]
        · have ht : searchTask valueQuery resolve p =
              some ⟨p.name, envVars.filter (jsValueMatch valueQuery)⟩ := by
            simp [searchTask, hr, hm]
          have hstep :
              searchByValueInProjects valueQuery (p :: ps) resolve =
                (⟨p.name, envVars.filter (jsValueMatch valueQuery)⟩ :
                    MatchResult) ::
                  searchByValueInProjects valueQuery ps resolve := by
            simp only [searchByValueInProjects, List.filterMap_cons, ht]
          rw [hstep, ih, List.filter_cons]
          simp [hpm, hm]
  · decide

/-- C10: the concurrent search's fan-in (`Promise.all` over the mapped
task array) yields results in deterministic input project order: any two
projects that both produce matches appear in the output in their input
order, with the intervening projects' results in between. -/
theorem search_results_in_input_order (valueQuery : String)
    (resolve : Project → Except VErr (List EnvVar))
    (l₁ l₂ l₃ : List Project) (p p' : Project) (r r' : MatchResult)
    (hp : searchTask valueQuery resolve p = some r)
    (hp' : searchTask valueQuery resolve p' = some r') :
    searchByValueInProjects valueQuery (l₁ ++ p :: (l₂ ++ p' :: l₃))
        resolve =
      searchByValueInProjects valueQuery l₁ resolve ++
        r :: (searchByValueInProjects valueQuery l₂ resolve ++
          r' :: searchByValueInProjects valueQuery l₃ resolve) := by
  simp [searchByValueInProjects, List.filterMap_append, List.filterMap_cons,
    hp, hp']

/-- Witness for C10: two matching projects at input positions 0 and 2 (a
non-matching project between them) appear in the output in input order. -/
theorem search_results_in_input_order_witness :
    searchByValueInProjects "tok"
      ([] ++ ⟨"1", "P1", none, "t"⟩ ::
        ([⟨"2", "P2", none, "t"⟩] ++ ⟨"3", "P3", none, "t"⟩ :: []))
      (fun p => if p.id == "2" then .ok []
        else .ok [⟨some "i", "K", some "a-tok-value", some "plain",
          ["production"], "t"⟩]) =
      searchByValueInProjects "tok" [] (fun p => if p.id == "2" then .ok []
        else .ok [⟨some "i", "K", some "a-tok-value", some "plain",
          ["production"], "t"⟩]) ++
      (⟨"P1", [⟨some "i", "K", some "a-tok-value", some "plain",
          ["production"], "t"⟩]⟩ : MatchResult) ::
        (searchByValueInProjects "tok" [⟨"2", "P2", none, "t"⟩]
          (fun p => if p.id == "2" then .ok []
            else .ok [⟨some "i", "K", some "a-tok-value", some "plain",
              ["production"], "t"⟩]) ++
         (⟨"P3", [⟨some "i", "K", some "a-tok-value", some "plain",
             ["production"], "t"⟩]⟩ : MatchResult) ::
          searchByValueInProjects "tok" []
            (fun p => if p.id == "2" then .ok []
              else .ok [⟨some "i", "K", some "a-tok-value", some "plain",
                ["production"], "t"⟩])) :=
  search_results_in_input_order "tok"
    (fun p => if p.id == "2" then .ok []
      else .ok [⟨some "i", "K", some "a-tok-value", some "plain",
        ["production"], "t"⟩])
    [] [⟨"2", "P2", none, "t"⟩] [] ⟨"1", "P1", none, "t"⟩
    ⟨"3", "P3", none, "t"⟩
    ⟨"P1", [⟨some "i", "K", some "a-tok-value", some "plain",
      ["production"], "t"⟩]⟩
    ⟨"P3", [⟨some "i", "K", some "a-tok-value", some "plain",
      ["production"], "t"⟩]⟩
    (by decide) (by decide)

/-! ## RequestExecutor (`request` in `src/vercel-api.ts`)

The network is a script of responses, one per attempt; the recursion of
`request` consumes one scripted response per attempt.  The result is
returned together with the list of backoff delays performed (in order) and
the number of attempts made. -/

/-- The `RATE_LIMIT` configuration object of `src/vercel-api.ts`. -/
def RATE_LIMIT.maxConcurrent : Nat := 5

/-- Minimum spacing between request start times, in milliseconds. -/
def RATE_LIMIT.minDelayMs : Nat := 100

/-- Maximum number of attempts for one request (initial try included). -/
def RATE_LIMIT.retryAttempts : Nat := 3

/-- Base backoff delay in milliseconds. -/
def RATE_LIMIT.retryDelayMs : Nat := 1000

/-- One scripted outcome of a `fetch` call: a 2xx response with a parsed
body, a non-2xx status with an error message, or a transport-level failure
thrown with a message. -/
inductive HttpResp (α : Type) where
  | ok (body : α)
  | status (code : Nat) (msg : String)
  | netError (msg : String)
  deriving Repr, DecidableEq

/-- The message of the error thrown for a non-2xx response:
`` `API Error (${status}): ${message}` ``. -/
def apiErrorMsg (code : Nat) (msg : String) : String :=
  "API Error (" ++ toString code ++ "): " ++ msg

/-- The retry loop of `request`: a 429 with `attempt < retryAttempts`
backs off `retryDelayMs * 2^(attempt-1)` ms and recurses with
`attempt + 1`; any error thrown in the `try` block (a transport failure,
or the thrown `API Error` text) is retried the same way only when
`attempt < retryAttempts` and its message contains `'fetch'`; everything
else propagates.  Returns (result, backoff delays performed, attempts
made). -/
def requestGo {α : Type} :
    List (HttpResp α) → Nat → Except VErr α × List Nat × Nat
  | [], _ => (.error (.network "no response"), [], 0)
  | .ok body :: _, _ => (.ok body, [], 1)
  | .status code msg :: rest, attempt =>
    if code = 429 ∧ attempt < RATE_LIMIT.retryAttempts then
      let next := requestGo rest (attempt + 1)
      (next.1, RATE_LIMIT.retryDelayMs * 2 ^ (attempt - 1) :: next.2.1,
       next.2.2 + 1)
    else if attempt < RATE_LIMIT.retryAttempts ∧
        jsIncludes (apiErrorMsg code msg) "fetch" then
      let next := requestGo rest (attempt + 1)
      (next.1, RATE_LIMIT.retryDelayMs * 2 ^ (attempt - 1) :: next.2.1,
       next.2.2 + 1)
    else (.error (.api code (apiErrorMsg code msg)), [], 1)
  | .netError msg :: rest, attempt =>
    if attempt < RATE_LIMIT.retryAttempts ∧ jsIncludes msg "fetch" then
      let next := requestGo rest (attempt + 1)
      (next.1, RATE_LIMIT.retryDelayMs * 2 ^ (attempt - 1) :: next.2.1,
       next.2.2 + 1)
    else (.error (.network msg), [], 1)

lemma requestGo_bounds (α : Type) :
    ∀ (rs : List (HttpResp α)) (a : Nat), 1 ≤ a →
      a ≤ RATE_LIMIT.retryAttempts →
      (requestGo rs a).2.2 + a ≤ RATE_LIMIT.retryAttempts + 1 ∧
      ∀ i d, (requestGo rs a).2.1.get? i = some d →
        d = RATE_LIMIT.retryDelayMs * 2 ^ (a - 1 + i) := by
  intro rs
  induction rs with
  | nil => intro a _ _; exact ⟨by simp [requestGo]; omega, by simp [requestGo]⟩
  | cons r rest ih =>
    intro a ha hle
    cases r with
    | ok body =>
      refine ⟨?_, ?_⟩
      · simp only [requestGo]; omega
      · intro i d hget; simp [requestGo] at hget
    | status code msg =>
      by_cases h1 : code = 429 ∧ a < RATE_LIMIT.retryAttempts
      · obtain ⟨ih1, ih2⟩ := ih (a + 1) (by omega) (by omega)
        refine ⟨?_, ?_⟩
        · simp only [requestGo, if_pos h1]; omega
        · intro i d hget
          simp only [requestGo, if_pos h1] at hget
          cases i with
          | zero =>
            simp only [List.get?_cons_zero, Option.some.injEq] at hget
            simpa using hget.symm
          | succ i =>
            simp only [List.get?_cons_succ] at hget
            have := ih2 i d hget
            have he : a + 1 - 1 + i = a - 1 + (i + 1) := by omega
            rw [this, he]
      · by_cases h2 : a < RATE_LIMIT.retryAttempts ∧
          jsIncludes (apiErrorMsg code msg) "fetch" = true
        · obtain ⟨ih1, ih2⟩ := ih (a + 1) (by omega) (by omega)
          refine ⟨?_, ?_⟩
          · simp only [requestGo, if_neg h1, if_pos h2]; omega
          · intro i d hget
            simp only [requestGo, if_neg h1, if_pos h2] at hget
            cases i with
            | zero =>
              simp only [List.get?_cons_zero, Option.some.injEq] at hget
              simpa using hget.symm
            | succ i =>
              simp only [List.get?_cons_succ] at hget
              have := ih2 i d hget
              have he : a + 1 - 1 + i = a - 1 + (i + 1) := by omega
              rw [this, he]
        · refine ⟨?_, ?_⟩
          · simp only [requestGo, if_neg h1, if_neg h2]; omega
          · intro i d hget
            simp only [requestGo, if_neg h1, if_neg h2] at hget
            simp at hget
    | netError msg =>
      by_cases h2 : a < RATE_LIMIT.retryAttempts ∧
        jsIncludes msg "fetch" = true
      · obtain ⟨ih1, ih2⟩ := ih (a + 1) (by omega) (by omega)
        refine ⟨?_, ?_⟩
        · simp only [requestGo, if_pos h2]; omega
        · intro i d hget
          simp only [requestGo, if_pos h2] at hget
          cases i with
          | zero =>
            simp only [List.get?_cons_zero, Option.some.injEq] at hget
            simpa using hget.symm
          | succ i =>
            simp only [List.get?_cons_succ] at hget
            have := ih2 i d hget
            have he : a + 1 - 1 + i = a - 1 + (i + 1) := by omega
            rw [this, he]
      · refine ⟨?_, ?_⟩
        · simp only [requestGo, if_neg h2]; omega
        · intro i d hget
          simp only [requestGo, if_neg h2] at hget
          simp at hget

/-- C5: for any scripted sequence of responses, a request starting at
attempt 1 makes at most `retryAttempts` (3) total attempts, and the
`(i+1)`-th backoff delay performed is exactly
`retryDelayMs * 2^i` milliseconds (so the Nth retry waits
`retryDelayMs * 2^(N-1)`, base 1000 ms). -/
theorem request_backoff_bounded (α : Type) (responses : List (HttpResp α)) :
    (requestGo responses 1).2.2 ≤ RATE_LIMIT.retryAttempts ∧
    ∀ i d, (requestGo responses 1).2.1.get? i = some d →
      d = RATE_LIMIT.retryDelayMs * 2 ^ i := by
  obtain ⟨h1, h2⟩ := requestGo_bounds α responses 1 (le_refl 1) (by decide)
  refine ⟨by omega, ?_⟩
  intro i d hget
  simpa using h2 i d hget

/-- Witness for C5: a server that answers 429 three times — three total
attempts (the cap), and the second retry waited `1000 * 2^1 = 2000` ms. -/
theorem request_backoff_bounded_witness :
    (requestGo (α := Nat)
      [.status 429 "slow", .status 429 "slow", .status 429 "slow"]
      1).2.2 ≤ RATE_LIMIT.retryAttempts ∧
    (2000 : Nat) = RATE_LIMIT.retryDelayMs * 2 ^ 1 :=
  ⟨(request_backoff_bounded Nat
      [.status 429 "slow", .status 429 "slow", .status 429 "slow"]).1,
   (request_backoff_bounded Nat
      [.status 429 "slow", .status 429 "slow", .status 429 "slow"]).2
      1 2000 (by rfl)⟩

/-! ## PaginatedFetcher (`getProjects` in `src/vercel-api.ts`)

The server is a script of page responses consumed one per fetch.  A result
of `none` models the loop running off the end of the script — i.e. the
code would keep fetching (and on an endlessly echoing cursor it never
terminates); the code has no error/abort path of its own in this loop and
no `InvariantError` anywhere. -/

/-- One page of the cursor-paginated "list projects" endpoint: the items
plus `pagination?.next` (`|| null` makes an empty-string cursor falsy). -/
structure PageResp where
  projects : List Project
  next : Option String
  deriving Repr, DecidableEq

/-- The `do … while (next && projects.length < limit)` loop of
`getProjects`: push the page's items; break once `limit` items
accumulated; otherwise continue iff the reported cursor is truthy;
finally `slice(0, limit)`. -/
def getProjectsGo : List PageResp → List Project → Nat → Option (List Project)
  | [], _, _ => none
  | page :: rest, acc, limit =>
    if (acc ++ page.projects).length ≥ limit then
      some ((acc ++ page.projects).take limit)
    else if jsTruthy page.next then
      getProjectsGo rest (acc ++ page.projects) limit
    else some ((acc ++ page.projects).take limit)

/-- `getProjects(limit)` from `src/vercel-api.ts`, over a scripted server. -/
def getProjects (responses : List PageResp) (limit : Nat) :
    Option (List Project) :=
  getProjectsGo responses [] limit

/-- A terminating server script: every page before the last reports a
truthy next cursor, and the last page reports none. -/
inductive WFPages : List PageResp → Prop
  | last (page : PageResp) (h : jsTruthy page.next = false) :
      WFPages [page]
  | cons (page : PageResp) (rest : List PageResp)
      (h : jsTruthy page.next = true) (hw : WFPages rest) :
      WFPages (page :: rest)

lemma getProjectsGo_wf (rs : List PageResp) (hw : WFPages rs) :
    ∀ (acc : List Project) (limit : Nat),
      getProjectsGo rs acc limit =
        some ((acc ++ rs.flatMap PageResp.projects).take limit) := by
  induction hw with
  | last page h =>
    intro acc limit
    simp only [getProjectsGo, List.flatMap_cons, List.flatMap_nil,
      List.append_nil]
    by_cases hlen : (acc ++ page.projects).length ≥ limit
    · rw [if_pos hlen]
    · rw [if_neg hlen, if_neg (by simp [h])]
  | cons page rest h hwrest ih =>
    intro acc limit
    by_cases hlen : (acc ++ page.projects).length ≥ limit
    · simp only [getProjectsGo, if_pos hlen]
      congr 1
      rw [List.flatMap_cons, ← List.append_assoc]
      exact (List.take_eq_left_iff.mpr (Or.inr hlen)).symm
    · simp only [getProjectsGo, if_neg hlen, h, if_true]
      rw [ih (acc ++ page.projects) limit, List.flatMap_cons,
        List.append_assoc]

/-- C6 (amended): over any terminating server script, `getProjects(limit)`
returns exactly the first `min(limit, total available)` items in finitely
many page fetches; the source has no identical-cursor guard and no
`InvariantError`. -/
theorem getProjects_min_limit (responses : List PageResp) (limit : Nat)
    (hw : WFPages responses) :
    getProjects responses limit =
      some ((responses.flatMap PageResp.projects).take limit) ∧
    ((responses.flatMap PageResp.projects).take limit).length =
      min limit (responses.flatMap PageResp.projects).length := by
  refine ⟨?_, List.length_take limit _⟩
  rw [getProjects, getProjectsGo_wf responses hw []]
  simp

/-- Witness for C6 (amended): a two-page script with four projects and
`limit = 3` yields exactly the first three. -/
theorem getProjects_min_limit_witness :
    getProjects
      [⟨[⟨"1", "P1", none, "t"⟩, ⟨"2", "P2", none, "t"⟩], some "c"⟩,
       ⟨[⟨"3", "P3", none, "t"⟩, ⟨"4", "P4", none, "t"⟩], none⟩] 3 =
      some (([⟨[⟨"1", "P1", none, "t"⟩, ⟨"2", "P2", none, "t"⟩], some "c"⟩,
        ⟨[⟨"3", "P3", none, "t"⟩, ⟨"4", "P4", none, "t"⟩],
         none⟩].flatMap PageResp.projects).take 3) ∧
    (([⟨[⟨"1", "P1", none, "t"⟩, ⟨"2", "P2", none, "t"⟩], some "c"⟩,
       ⟨[⟨"3", "P3", none, "t"⟩, ⟨"4", "P4", none, "t"⟩],
        none⟩].flatMap PageResp.projects).take 3).length =
      min 3 ([⟨[⟨"1", "P1", none, "t"⟩, ⟨"2", "P2", none, "t"⟩], some "c"⟩,
        ⟨[⟨"3", "P3", none, "t"⟩, ⟨"4", "P4", none, "t"⟩],
         none⟩].flatMap PageResp.projects).length :=
  getProjects_min_limit
    [⟨[⟨"1", "P1", none, "t"⟩, ⟨"2", "P2", none, "t"⟩], some "c"⟩,
     ⟨[⟨"3", "P3", none, "t"⟩, ⟨"4", "P4", none, "t"⟩], none⟩] 3
    (.cons _ _ (by decide) (.last _ (by decide)))

/-- Counterexample for C6 as stated: the code has no identical-cursor
guard.  On a script whose two consecutive pages report the identical
cursor `"c"`, `getProjects` completes normally with items (it does not
abort with an `InvariantError` — no such error exists in the source); and
on a script of empty pages echoing the same cursor, the loop just keeps
fetching to the end of the script (with an endless echo it would never
terminate) instead of aborting. -/
theorem getProjects_no_cursor_guard :
    ([⟨[⟨"1", "P1", none, "t"⟩, ⟨"2", "P2", none, "t"⟩], some "c"⟩,
      ⟨[⟨"3", "P3", none, "t"⟩, ⟨"4", "P4", none, "t"⟩],
       some "c"⟩].map PageResp.next = [some "c", some "c"]) ∧
    getProjects
      [⟨[⟨"1", "P1", none, "t"⟩, ⟨"2", "P2", none, "t"⟩], some "c"⟩,
       ⟨[⟨"3", "P3", none, "t"⟩, ⟨"4", "P4", none, "t"⟩], some "c"⟩] 3 =
      some [⟨"1", "P1", none, "t"⟩, ⟨"2", "P2", none, "t"⟩,
        ⟨"3", "P3", none, "t"⟩] ∧
    getProjects [⟨[], some "c"⟩, ⟨[], some "c"⟩, ⟨[], some "c"⟩] 5 =
      none := by
  refine ⟨by decide, by decide, by decide⟩

/-! ## RateLimiter (`enforceRateLimit` in `src/vercel-api.ts`)

`enforceRateLimit` reads `lastRequestTime`, sleeps
`minDelayMs - (now - lastRequestTime)` when the gap is too small, then —
only after the sleep — writes `lastRequestTime = Date.now()` and lets the
request start.  The sleep is an `await`, so other tasks interleave there;
the elapsed-time check is not re-done after waking.  `RLStep` is the
small-step semantics of several tasks running this code cooperatively:
a task is atomic between suspension points, the clock never goes
backwards, and a sleeping task wakes at or after its wake time. -/

/-- One task's position in `enforceRateLimit`: not yet entered, sleeping
inside the `await delay(...)`, or past it with its request started. -/
inductive RLTask where
  | ready
  | sleeping (wake : Int)
  | started (start : Int)
  deriving Repr, DecidableEq

/-- Global state: current clock, the shared `lastRequestTime`, and the
tasks. -/
structure RLState where
  now : Int
  last : Int
  tasks : List RLTask
  deriving Repr, DecidableEq

/-- Cooperative interleaving of `enforceRateLimit`:
`tick` advances the clock; `enterGo` is a task running the whole method
with no sleep needed (gap already ≥ `minDelayMs`: set `lastRequestTime`,
start); `enterWait` is a task computing its wait from the current
`lastRequestTime` and suspending (nothing written before the sleep);
`wake` is a sleeping task resuming at or after its wake time, writing
`lastRequestTime = Date.now()` and starting — without re-checking the
gap. -/
inductive RLStep : RLState → RLState → Prop where
  | tick (s : RLState) (t : Int) (h : s.now ≤ t) :
      RLStep s ⟨t, s.last, s.tasks⟩
  | enterGo (s : RLState) (i : Nat)
      (h : s.tasks.get? i = some .ready)
      (hd : ¬ s.now - s.last < (RATE_LIMIT.minDelayMs : Int)) :
      RLStep s ⟨s.now, s.now, s.tasks.set i (.started s.now)⟩
  | enterWait (s : RLState) (i : Nat)
      (h : s.tasks.get? i = some .ready)
      (hd : s.now - s.last < (RATE_LIMIT.minDelayMs : Int)) :
      RLStep s ⟨s.now, s.last,
        s.tasks.set i (.sleeping
          (s.now + ((RATE_LIMIT.minDelayMs : Int) - (s.now - s.last))))⟩
  | wake (s : RLState) (i : Nat) (w : Int)
      (h : s.tasks.get? i = some (.sleeping w)) (hw : w ≤ s.now) :
      RLStep s ⟨s.now, s.now, s.tasks.set i (.started s.now)⟩

/-- Counterexample for C9 as stated: a reachable execution in which two
calls both proceed with identical start times (gap 0 < `minDelayMs`).
Tasks 1 and 2 both read `lastRequestTime` before either sleeps, compute
the same wake time 1100, and both start on waking — the gap check is
never re-done after the sleep. -/
theorem rateLimiter_spacing_violation :
    Relation.ReflTransGen RLStep ⟨1000, 0, [.ready, .ready, .ready]⟩
      ⟨1100, 1100, [.started 1000, .started 1100, .started 1100]⟩ ∧
    ([RLTask.started 1000, .started 1100, .started 1100].get? 1 =
      some (.started 1100) ∧
     [RLTask.started 1000, .started 1100, .started 1100].get? 2 =
      some (.started 1100)) ∧
    ¬ ((RATE_LIMIT.minDelayMs : Int) ≤ |(1100 : Int) - 1100|) := by
  refine ⟨?_, ⟨by decide, by decide⟩, by decide⟩
  have h1 : RLStep ⟨1000, 0, [.ready, .ready, .ready]⟩
      ⟨1000, 1000, [.started 1000, .ready, .ready]⟩ :=
    RLStep.enterGo ⟨1000, 0, [.ready, .ready, .ready]⟩ 0 (by decide)
      (by decide)
  have h2 : RLStep ⟨1000, 1000, [.started 1000, .ready, .ready]⟩
      ⟨1000, 1000, [.started 1000, .sleeping 1100, .ready]⟩ :=
    RLStep.enterWait ⟨1000, 1000, [.started 1000, .ready, .ready]⟩ 1
      (by decide) (by decide)
  have h3 : RLStep ⟨1000, 1000, [.started 1000, .sleeping 1100, .ready]⟩
      ⟨1000, 1000, [.started 1000, .sleeping 1100, .sleeping 1100]⟩ :=
    RLStep.enterWait ⟨1000, 1000, [.started 1000, .sleeping 1100, .ready]⟩
      2 (by decide) (by decide)
  have h4 : RLStep
      ⟨1000, 1000, [.started 1000, .sleeping 1100, .sleeping 1100]⟩
      ⟨1100, 1000, [.started 1000, .sleeping 1100, .sleeping 1100]⟩ :=
    RLStep.tick ⟨1000, 1000, [.started 1000, .sleeping 1100, .sleeping 1100]⟩
      1100 (by decide)
  have h5 : RLStep
      ⟨1100, 1000, [.started 1000, .sleeping 1100, .sleeping 1100]⟩
      ⟨1100, 1100, [.started 1000, .started 1100, .sleeping 1100]⟩ :=
    RLStep.wake ⟨1100, 1000, [.started 1000, .sleeping 1100, .sleeping 1100]⟩
      1 1100 (by decide) (by decide)
  have h6 : RLStep
      ⟨1100, 1100, [.started 1000, .started 1100, .sleeping 1100]⟩
      ⟨1100, 1100, [.started 1000, .started 1100, .started 1100]⟩ :=
    RLStep.wake ⟨1100, 1100, [.started 1000, .started 1100, .sleeping 1100]⟩
      2 1100 (by decide) (by decide)
  exact .head h1 (.head h2 (.head h3 (.head h4 (.head h5 (.single h6)))))

/-- The start time `enforceRateLimit` produces for one serialized call:
arriving at `now` with the shared `lastRequestTime` equal to `last`,
either no sleep is needed or the call wakes after the computed wait. -/
def rlStart (last now : Int) : Int :=
  if now - last < (RATE_LIMIT.minDelayMs : Int) then
    now + ((RATE_LIMIT.minDelayMs : Int) - (now - last))
  else now

/-- Start times of a sequence of serialized `enforceRateLimit` calls
(each call completes, setting `lastRequestTime` to its start time, before
the next begins). -/
def seqStarts (last : Int) : List Int → List Int
  | [] => []
  | now :: rest => rlStart last now :: seqStarts (rlStart last now) rest

lemma rlStart_lower (last now : Int) :
    last + (RATE_LIMIT.minDelayMs : Int) ≤ rlStart last now := by
  simp only [rlStart, RATE_LIMIT.minDelayMs]
  split <;> push_cast <;> omega

lemma seqStarts_lower (rest : List Int) :
    ∀ (last : Int) (j : Nat) (s : Int),
      (seqStarts last rest).get? j = some s →
        last + (RATE_LIMIT.minDelayMs : Int) ≤ s := by
  induction rest with
  | nil => intro last j s h; simp [seqStarts] at h
  | cons now rest ih =>
    intro last j s h
    have hmd : (0 : Int) ≤ (RATE_LIMIT.minDelayMs : Int) := Int.ofNat_nonneg _
    cases j with
    | zero =>
      simp only [seqStarts, List.get?_cons_zero, Option.some.injEq] at h
      subst h
      exact rlStart_lower last now
    | succ j =>
      simp only [seqStarts, List.get?_cons_succ] at h
      have hs := ih (rlStart last now) j s h
      have hr := rlStart_lower last now
      linarith

/-- C9 (amended): in a serialized execution — each `acquire` runs
`enforceRateLimit` to completion before the next begins — the start times
of any two calls that both proceed are at least `minDelayMs` apart. -/
theorem rateLimiter_serialized_spacing (arrivals : List Int) (last : Int)
    (i j : Nat) (si sj : Int) (hij : i < j)
    (hi : (seqStarts last arrivals).get? i = some si)
    (hj : (seqStarts last arrivals).get? j = some sj) :
    si + (RATE_LIMIT.minDelayMs : Int) ≤ sj := by
  induction arrivals generalizing last i j with
  | nil => simp [seqStarts] at hi
  | cons now rest ih =>
    cases i with
    | zero =>
      simp only [seqStarts, List.get?_cons_zero, Option.some.injEq] at hi
      subst hi
      cases j with
      | zero => omega
      | succ j =>
        simp only [seqStarts, List.get?_cons_succ] at hj
        exact seqStarts_lower rest (rlStart last now) j sj hj
    | succ i =>
      cases j with
      | zero => omega
      | succ j =>
        simp only [seqStarts, List.get?_cons_succ] at hi hj
        exact ih (rlStart last now) i j (by omega) hi hj

/-- Witness for C9 (amended): two serialized calls arriving at the same
instant 1000 (with `lastRequestTime` 0) start at 1000 and 1100 — exactly
`minDelayMs` apart. -/
theorem rateLimiter_serialized_spacing_witness :
    (1000 : Int) + (RATE_LIMIT.minDelayMs : Int) ≤ 1100 :=
  rateLimiter_serialized_spacing [1000, 1000] 0 0 1 1000 1100
    (by decide) (by decide) (by decide)

end VEC
